import Mathlib

/-!
Verification of the label-enhancement pipeline in `create_enhanced_labels.py`
(repository timmh/twig).  Python strings are embedded as `List Char`; Python
dictionaries as association lists whose lookup returns the most recently
inserted binding; fallible Python code runs in `Except PyErr`.
-/

deriving instance DecidableEq for Except

namespace Twig

/-- Python exception kinds that the script can raise. -/
inductive PyErr where
  | indexError
  | valueError
  | urlError
  | fileNotFound
deriving DecidableEq, Repr

/-- Whitespace characters recognised by Python `str.strip` / `str.split`. -/
def pyIsSpace (c : Char) : Bool :=
  c = ' ' || c = '\t' || c = '\n' || c = '\r' || c = '\x0b' || c = '\x0c'

/-- Python `str.strip()`: drop leading and trailing whitespace. -/
def pyStrip (s : List Char) : List Char :=
  ((s.dropWhile pyIsSpace).reverse.dropWhile pyIsSpace).reverse

/-- Worker for `pySplitWS`: `acc` holds the current token, reversed. -/
def splitAux : List Char → List Char → List (List Char)
  | [], acc => if acc.isEmpty then [] else [acc.reverse]
  | c :: rest, acc =>
    if pyIsSpace c then
      if acc.isEmpty then splitAux rest [] else acc.reverse :: splitAux rest []
    else splitAux rest (c :: acc)

/-- Python `str.split()` with no argument: split on whitespace runs,
discarding empty tokens. -/
def pySplitWS (s : List Char) : List (List Char) :=
  splitAux s []

/-- Python indexing `s[i]`, raising `IndexError` when out of range. -/
def pyIndex (s : List Char) (i : Nat) : Except PyErr Char :=
  match s.get? i with
  | some c => Except.ok c
  | none => Except.error PyErr.indexError

/-- Python `str.isalpha()`: nonempty and all alphabetic. -/
def pyStrIsAlpha (s : List Char) : Bool :=
  !s.isEmpty && s.all Char.isAlpha

/-- Python `str.lower()`. -/
def pyToLower (s : List Char) : List Char :=
  s.map Char.toLower

/-- `is_scientific_name` from `create_enhanced_labels.py` (lines 110-132),
with Python's short-circuit evaluation of `genus[0].isupper() and
species[0].islower()` made explicit in the `Except` monad. -/
def is_scientific_name (label : List Char) : Except PyErr Bool :=
  if label.contains '_' || label.contains '(' then Except.ok false
  else
    let parts := pySplitWS (pyStrip label)
    if parts.length ≠ 2 then Except.ok false
    else
      match parts with
      | [genus, species] => do
        let cond ← do
          let g0 ← pyIndex genus 0
          if g0.isUpper then do
            let s0 ← pyIndex species 0
            pure s0.isLower
          else
            pure false
        if !cond then pure false
        else if !(pyStrIsAlpha genus && pyStrIsAlpha species) then pure false
        else pure true
      | _ => Except.error PyErr.valueError

/-- The classification rule exactly as the specification words it: no
underscore, no opening parenthesis, a whitespace split into exactly two
tokens, first token leading character uppercase, second lowercase, both
tokens fully alphabetic. -/
def scientificNameSpec (label : List Char) : Bool :=
  !label.contains '_' && !label.contains '(' &&
    (match pySplitWS label with
     | [gc :: gtl, sc :: stl] =>
       gc.isUpper && sc.isLower && pyStrIsAlpha (gc :: gtl) && pyStrIsAlpha (sc :: stl)
     | _ => false)

/-- `label.replace(chr(95), chr(32))` from `format_non_species_label`. -/
def replaceUnderscores (s : List Char) : List Char :=
  s.map (fun c => if c = '_' then ' ' else c)

/-- Length of the match of the regular expression used in
`format_non_species_label` (whitespace run, an opening parenthesis, a run of
non-closing-parenthesis characters, a closing parenthesis) when it matches at
the head of `s`. -/
def subMatchLen (s : List Char) : Option Nat :=
  let w := s.takeWhile pyIsSpace
  match s.drop w.length with
  | '(' :: r =>
    let body := r.takeWhile (fun c => c ≠ ')')
    match r.drop body.length with
    | ')' :: _ => some (w.length + 1 + body.length + 1)
    | _ => none
  | _ => none

/-- `re.sub` of that pattern with the empty replacement: scan left to right,
deleting each leftmost match; fuel-indexed so that the definition is
structural (fuel `s.length` always suffices). -/
def reSubFuel : Nat → List Char → List Char
  | 0, s => s
  | _ + 1, [] => []
  | fuel + 1, c :: rest =>
    match subMatchLen (c :: rest) with
    | some n => reSubFuel fuel ((c :: rest).drop n)
    | none => c :: reSubFuel fuel rest

/-- `format_non_species_label` from `create_enhanced_labels.py`
(lines 134-144). -/
def format_non_species_label (label : List Char) : List Char :=
  let formatted := replaceUnderscores label
  pyStrip (reSubFuel formatted.length formatted)

/-- Removal of parenthesized substrings exactly as the specification words
it: every parenthesized group, including its parentheses but nothing else, is
deleted via a leftmost non-greedy match. -/
def removeParensLiteral : Nat → List Char → List Char
  | 0, s => s
  | _ + 1, [] => []
  | fuel + 1, c :: rest =>
    if c = '(' && rest.contains ')' then
      removeParensLiteral fuel ((rest.dropWhile (fun d => d ≠ ')')).drop 1)
    else c :: removeParensLiteral fuel rest

/-- The formatting procedure exactly as the specification words it:
underscores to spaces, parenthesized substrings removed, ends trimmed. -/
def formatLiteralSpec (label : List Char) : List Char :=
  let formatted := replaceUnderscores label
  pyStrip (removeParensLiteral formatted.length formatted)

/-- Removal of parenthesized substrings together with any whitespace
immediately preceding the opening parenthesis (the amended wording). -/
def removeParensWS : Nat → List Char → List Char
  | 0, s => s
  | _ + 1, [] => []
  | fuel + 1, c :: rest =>
    let r := (c :: rest).dropWhile pyIsSpace
    if r.headD 'x' = '(' && (r.drop 1).contains ')' then
      removeParensWS fuel (((r.drop 1).dropWhile (fun d => d ≠ ')')).drop 1)
    else c :: removeParensWS fuel rest

/-- The amended formatting procedure: underscores to spaces, parenthesized
substrings (with their immediately preceding whitespace) removed, ends
trimmed. -/
def formatAmendedSpec (label : List Char) : List Char :=
  let formatted := replaceUnderscores label
  pyStrip (removeParensWS formatted.length formatted)

/-- Character list spelling out: Aves -/
def avesStr : List Char := ['A', 'v', 'e', 's']

/-- Character list spelling out: species -/
def speciesStr : List Char := ['s', 'p', 'e', 'c', 'i', 'e', 's']

/-- Character list spelling out: en -/
def enStr : List Char := ['e', 'n']

/-- Character list spelling out: eng -/
def engStr : List Char := ['e', 'n', 'g']

/-- Character list spelling out: english -/
def englishStr : List Char := ['e', 'n', 'g', 'l', 'i', 's', 'h']

/-- Character list spelling out: fr -/
def frStr : List Char := ['f', 'r']

/-- Character list spelling out: T1 -/
def t1Str : List Char := ['T', '1']

/-- Character list spelling out: Corvus corax -/
def corvusCorax : List Char := ['C', 'o', 'r', 'v', 'u', 's', ' ', 'c', 'o', 'r', 'a', 'x']

/-- Character list spelling out: Corvus underscore corax -/
def corvusUnderscore : List Char := ['C', 'o', 'r', 'v', 'u', 's', '_', 'c', 'o', 'r', 'a', 'x']

/-- Character list spelling out: Corvus corax linnaeus -/
def corvusThree : List Char := ['C', 'o', 'r', 'v', 'u', 's', ' ', 'c', 'o', 'r', 'a', 'x', ' ', 'l', 'i', 'n', 'n', 'a', 'e', 'u', 's']

/-- Character list spelling out: corvus corax, with no capital letter -/
def corvusLower : List Char := ['c', 'o', 'r', 'v', 'u', 's', ' ', 'c', 'o', 'r', 'a', 'x']

/-- Character list spelling out: Corvus corax, with a leading space -/
def corvusPadded : List Char := [' ', 'C', 'o', 'r', 'v', 'u', 's', ' ', 'c', 'o', 'r', 'a', 'x']

/-- Character list spelling out: Common Raven -/
def commonRaven : List Char := ['C', 'o', 'm', 'm', 'o', 'n', ' ', 'R', 'a', 'v', 'e', 'n']

/-- Character list spelling out: Grand Corbeau -/
def grandCorbeau : List Char := ['G', 'r', 'a', 'n', 'd', ' ', 'C', 'o', 'r', 'b', 'e', 'a', 'u']

/-- Character list spelling out: Human underscore vocal underscore, then song in parentheses -/
def humanVocalSong : List Char := ['H', 'u', 'm', 'a', 'n', '_', 'v', 'o', 'c', 'a', 'l', '_', '(', 's', 'o', 'n', 'g', ')']

/-- Character list spelling out: Human vocal -/
def humanVocal : List Char := ['H', 'u', 'm', 'a', 'n', ' ', 'v', 'o', 'c', 'a', 'l']

/-- Character list spelling out: the letter a, a space, then b in parentheses, a space, the letter c -/
def abcParen : List Char := ['a', ' ', '(', 'b', ')', ' ', 'c']

/-- Character list spelling out: the letter a, one space, the letter c -/
def acStr : List Char := ['a', ' ', 'c']

/-- Character list spelling out: the letter a, two spaces, the letter c -/
def aSpaceSpaceC : List Char := ['a', ' ', ' ', 'c']

/-- Character list spelling out: Silence -/
def silenceStr : List Char := ['S', 'i', 'l', 'e', 'n', 'c', 'e']

/-- Character list spelling out: original underscore label -/
def originalLabelStr : List Char := ['o', 'r', 'i', 'g', 'i', 'n', 'a', 'l', '_', 'l', 'a', 'b', 'e', 'l']

/-- Character list spelling out: common underscore name -/
def commonNameStr : List Char := ['c', 'o', 'm', 'm', 'o', 'n', '_', 'n', 'a', 'm', 'e']

/-- Character list spelling out: display underscore name -/
def displayNameStr : List Char := ['d', 'i', 's', 'p', 'l', 'a', 'y', '_', 'n', 'a', 'm', 'e']

/-- Character list holding one space character. -/
def spaceOnlyStr : List Char := [' ']

/-- Character list spelling out: en, with a trailing space -/
def enPadded : List Char := ['e', 'n', ' ']

/-- Lookup in a Python dictionary modelled as an association list whose most
recent binding for a key stands first. -/
def pyLookup {α β : Type} [DecidableEq α] (d : List (α × β)) (k : α) : Option β :=
  (d.find? (fun p => p.1 = k)).map (fun p => p.2)

/-- One output record of the pipeline (spec name: LabelRecord). -/
structure LabelRecord where
  original_label : List Char
  common_name : List Char
  display_name : List Char
deriving DecidableEq, Repr

/-- The per-label branch of `process_labels` (lines 182-203 of
`create_enhanced_labels.py`); spec name: `classify_and_format`.  The Python
`common_name or chr(39)+chr(39)` / `common_name or original_label` truthiness
tests are spelt out on the `Option` returned by `dict.get`. -/
def classifyAndFormat (label : List Char) (mapping : List (List Char × List Char)) :
    Except PyErr LabelRecord := do
  let sci ← is_scientific_name label
  if sci then
    match pyLookup mapping label with
    | some cn =>
      if cn.isEmpty then pure ⟨label, [], label⟩
      else pure ⟨label, cn, cn⟩
    | none => pure ⟨label, [], label⟩
  else
    pure ⟨label, [], format_non_species_label label⟩

/-- Total description of `classifyAndFormat`; the two agree by
`classifyAndFormat_eq`. -/
def classifyAndFormatT (label : List Char) (mapping : List (List Char × List Char)) :
    LabelRecord :=
  if scientificNameSpec label then
    match pyLookup mapping label with
    | some cn =>
      if cn.isEmpty then ⟨label, [], label⟩
      else ⟨label, cn, cn⟩
    | none => ⟨label, [], label⟩
  else ⟨label, [], format_non_species_label label⟩

/-- A parsed row of NameUsage.tsv as `csv.DictReader` hands it to the script:
each referenced column is either absent (`none`) or holds a string. -/
structure NameUsageRow where
  col_class : Option (List Char)
  col_rank : Option (List Char)
  col_scientificName : Option (List Char)
  col_ID : Option (List Char)
deriving DecidableEq, Repr

/-- A parsed row of VernacularName.tsv. -/
structure VernacularRow where
  col_taxonID : Option (List Char)
  col_name : Option (List Char)
  col_language : Option (List Char)
deriving DecidableEq, Repr

/-- Body of the first loop of `load_bird_species_mapping` (lines 80-85):
test class, rank and binomial shape, then store under the row identifier. -/
def taxonStep (acc : List (Option (List Char) × List Char)) (row : NameUsageRow) :
    List (Option (List Char) × List Char) :=
  if row.col_class = some avesStr ∧ row.col_rank = some speciesStr then
    let scientific_name := pyStrip (row.col_scientificName.getD [])
    if ¬scientific_name.isEmpty ∧ scientific_name.contains ' ' then
      (row.col_ID, scientific_name) :: acc
    else acc
  else acc

/-- First loop of `load_bird_species_mapping` (lines 76-87): build the
`bird_taxa` dictionary from identifier to scientific name. -/
def buildTaxonIndex (rows : List NameUsageRow) : List (Option (List Char) × List Char) :=
  rows.foldl taxonStep []

/-- The row filter of the taxon-index loop, as one boolean. -/
def rowQualifies (row : NameUsageRow) : Bool :=
  row.col_class = some avesStr && row.col_rank = some speciesStr &&
    (let scientific_name := pyStrip (row.col_scientificName.getD [])
     !scientific_name.isEmpty && scientific_name.contains ' ')

/-- The scientific name a qualifying NameUsage row contributes. -/
def rowSciName (row : NameUsageRow) : List Char :=
  pyStrip (row.col_scientificName.getD [])

/-- Body of the second loop of `load_bird_species_mapping` (lines 94-105):
join against `bird_taxa`, test language and name, insert only when the
scientific name is not yet mapped. -/
def vernStep (bird_taxa : List (Option (List Char) × List Char))
    (acc : List (List Char × List Char)) (row : VernacularRow) :
    List (List Char × List Char) :=
  match pyLookup bird_taxa row.col_taxonID with
  | some scientific_name =>
    let vernacular_name := pyStrip (row.col_name.getD [])
    let language := pyStrip (row.col_language.getD [])
    if (pyToLower language = enStr ∨ pyToLower language = engStr ∨
        pyToLower language = englishStr) ∧ ¬vernacular_name.isEmpty then
      if (pyLookup acc scientific_name).isNone then
        (scientific_name, vernacular_name) :: acc
      else acc
    else acc
  | none => acc

/-- Second loop of `load_bird_species_mapping` (lines 90-105): build the
`species_mapping` dictionary with a first-match-wins guard. -/
def buildSpeciesMapping (vrows : List VernacularRow)
    (bird_taxa : List (Option (List Char) × List Char)) : List (List Char × List Char) :=
  vrows.foldl (vernStep bird_taxa) []

/-- The row filter of the vernacular loop, as one boolean (with the code's
stripping of the name and language fields). -/
def vernMatches (bird_taxa : List (Option (List Char) × List Char))
    (row : VernacularRow) : Bool :=
  (pyLookup bird_taxa row.col_taxonID).isSome &&
    (let language := pyStrip (row.col_language.getD [])
     pyToLower language = enStr || pyToLower language = engStr ||
       pyToLower language = englishStr) &&
    !(pyStrip (row.col_name.getD [])).isEmpty

/-- The row filter exactly as the claim words it: taxon identifier present in
the index, language lowercasing to en, eng or english, and a non-empty name
field (no stripping). -/
def vernMatchesLiteral (bird_taxa : List (Option (List Char) × List Char))
    (row : VernacularRow) : Bool :=
  (pyLookup bird_taxa row.col_taxonID).isSome &&
    (pyToLower (row.col_language.getD []) = enStr ||
     pyToLower (row.col_language.getD []) = engStr ||
     pyToLower (row.col_language.getD []) = englishStr) &&
    !(row.col_name.getD []).isEmpty

/-- Header row written by `process_labels` (line 217). -/
def headerRow : List (List Char) :=
  [originalLabelStr, commonNameStr, displayNameStr]

/-- The three CSV fields written for one record (lines 220-225). -/
def recordToRow (r : LabelRecord) : List (List Char) :=
  [r.original_label, r.common_name, r.display_name]

/-- The label-reading loop of `process_labels` (lines 169-203): empty CSV
rows are skipped, the first field of each remaining row is stripped and
classified. -/
def enhancedLabelsM (mapping : List (List Char × List Char))
    (rows : List (List (List Char))) : Except PyErr (List LabelRecord) :=
  (rows.filter (fun row => !row.isEmpty)).mapM
    (fun row => classifyAndFormat (pyStrip (row.headD [])) mapping)

/-- The rows of the output file enhanced_labels.csv (lines 213-225): the
header followed by one row per record. -/
def outputRows (mapping : List (List Char × List Char))
    (rows : List (List (List Char))) : Except PyErr (List (List (List Char))) := do
  let recs ← enhancedLabelsM mapping rows
  pure (headerRow :: recs.map recordToRow)

/-- Contents of the cached archive: which of the two expected TSV member
files it holds, with their parsed rows. -/
structure ZipContent where
  nameUsage : Option (List NameUsageRow)
  vernacular : Option (List VernacularRow)
deriving DecidableEq, Repr

/-- The file-system state the script touches: the cached archive, the two
extracted TSV files, and the labels input file (each `none` when absent). -/
structure ColFS where
  colZip : Option ZipContent
  nameUsage : Option (List NameUsageRow)
  vernacular : Option (List VernacularRow)
  labelsFile : Option (List (List (List Char)))
deriving DecidableEq, Repr

/-- `download_col_data` (lines 31-45): skip when the archive is cached,
otherwise fetch it (the network being an `Except` of the archive contents);
the boolean reports whether a network fetch was performed. -/
def download_col_data (net : Except PyErr ZipContent) (fs : ColFS) :
    Except PyErr (ColFS × Bool) :=
  if fs.colZip.isSome then Except.ok (fs, false)
  else
    match net with
    | Except.ok z => Except.ok ({ fs with colZip := some z }, true)
    | Except.error e => Except.error e

/-- `extract_col_data` (lines 47-62): skip when both TSV files exist,
otherwise extract the archive (writing exactly the member files it holds);
opening a missing archive raises; the boolean reports whether extraction was
performed. -/
def extract_col_data (fs : ColFS) : Except PyErr (ColFS × Bool) :=
  if fs.nameUsage.isSome && fs.vernacular.isSome then Except.ok (fs, false)
  else
    match fs.colZip with
    | some z =>
      Except.ok ({ fs with
        nameUsage := z.nameUsage.or fs.nameUsage,
        vernacular := z.vernacular.or fs.vernacular }, true)
    | none => Except.error PyErr.fileNotFound

/-- The Cache Manager of the spec: download then extract, counting how many
network fetches and extractions were performed. -/
def cacheManager (net : Except PyErr ZipContent) (fs : ColFS) :
    Except PyErr (ColFS × Nat × Nat) := do
  let p1 ← download_col_data net fs
  let p2 ← extract_col_data p1.1
  pure (p2.1, if p1.2 then 1 else 0, if p2.2 then 1 else 0)

/-- `load_bird_species_mapping` (lines 64-108): when either TSV file is
missing it warns and returns the empty mapping, otherwise it builds the
mapping from the parsed tables. -/
def load_bird_species_mapping (fs : ColFS) : List (List Char × List Char) :=
  match fs.nameUsage, fs.vernacular with
  | some nu, some vn => buildSpeciesMapping vn (buildTaxonIndex nu)
  | _, _ => []

/-- `process_labels` (lines 146-241): cache steps, mapping construction,
label processing, and the produced output-file rows. -/
def process_labels (net : Except PyErr ZipContent) (fs : ColFS) :
    Except PyErr (ColFS × List (List (List Char))) := do
  let p1 ← download_col_data net fs
  let p2 ← extract_col_data p1.1
  let mapping := load_bird_species_mapping p2.1
  match p2.1.labelsFile with
  | none => Except.error PyErr.fileNotFound
  | some rows => do
    let out ← outputRows mapping rows
    pure (p2.1, out)

/-- Observable outcome of the script's entry point. -/
structure MainResult where
  errorPrinted : Bool
  tracePrinted : Bool
  exitCode : Nat
deriving DecidableEq, Repr

/-- The `__main__` block (lines 243-249): every exception is caught, an
error message and the traceback are printed, and the interpreter then falls
off the end of the script, exiting with status 0 either way. -/
def mainEntry (net : Except PyErr ZipContent) (fs : ColFS) : MainResult :=
  match process_labels net fs with
  | Except.ok _ => ⟨false, false, 0⟩
  | Except.error _ => ⟨true, true, 0⟩

/-! ### Lemmas about whitespace splitting -/

theorem splitAux_all_space (t : List Char) (ht : t.all pyIsSpace = true) :
    ∀ acc, splitAux t acc = splitAux [] acc := by
  induction t with
  | nil => intro acc; rfl
  | cons c t ih =>
    intro acc
    rw [List.all_cons, Bool.and_eq_true] at ht
    obtain ⟨hc, ht2⟩ := ht
    by_cases ha : acc.isEmpty
    · simp [splitAux, hc, ha, ih ht2 []]
    · simp [splitAux, hc, ha, ih ht2 []]

theorem splitAux_append_space (t : List Char) (ht : t.all pyIsSpace = true) :
    ∀ s acc, splitAux (s ++ t) acc = splitAux s acc := by
  intro s
  induction s with
  | nil => intro acc; simpa using splitAux_all_space t ht acc
  | cons c s ih =>
    intro acc
    by_cases hc : pyIsSpace c
    · simp [splitAux, hc, ih]
    · simp [splitAux, hc, ih]

theorem pySplitWS_dropWhile (s : List Char) :
    pySplitWS (s.dropWhile pyIsSpace) = pySplitWS s := by
  induction s with
  | nil => rfl
  | cons c s ih =>
    by_cases hc : pyIsSpace c
    · rw [List.dropWhile_cons_of_pos hc, ih]
      show pySplitWS s = splitAux (c :: s) []
      simp [splitAux, hc, pySplitWS]
    · rw [List.dropWhile_cons_of_neg hc]

theorem pySplitWS_pyStrip (s : List Char) :
    pySplitWS (pyStrip s) = pySplitWS s := by
  unfold pyStrip
  have hu2 :
      ((s.dropWhile pyIsSpace).reverse.dropWhile pyIsSpace).reverse ++
        ((s.dropWhile pyIsSpace).reverse.takeWhile pyIsSpace).reverse =
        s.dropWhile pyIsSpace := by
    rw [← List.reverse_append, List.takeWhile_append_dropWhile, List.reverse_reverse]
  have hall :
      (((s.dropWhile pyIsSpace).reverse.takeWhile pyIsSpace).reverse).all pyIsSpace = true := by
    rw [List.all_reverse]
    exact List.all_takeWhile
  calc pySplitWS ((s.dropWhile pyIsSpace).reverse.dropWhile pyIsSpace).reverse
      = splitAux (((s.dropWhile pyIsSpace).reverse.dropWhile pyIsSpace).reverse ++
          ((s.dropWhile pyIsSpace).reverse.takeWhile pyIsSpace).reverse) [] :=
        (splitAux_append_space _ hall _ _).symm
    _ = splitAux (s.dropWhile pyIsSpace) [] := by rw [hu2]
    _ = pySplitWS s := pySplitWS_dropWhile s

theorem splitAux_mem_ne_nil :
    ∀ (s acc t : List Char), t ∈ splitAux s acc → t ≠ [] := by
  intro s
  induction s with
  | nil =>
    intro acc t ht
    by_cases ha : acc.isEmpty
    · simp [splitAux, ha] at ht
    · simp [splitAux, ha] at ht
      subst ht
      simp only [ne_eq, List.reverse_eq_nil_iff]
      intro h
      rw [h] at ha
      exact ha rfl
  | cons c s ih =>
    intro acc t ht
    by_cases hc : pyIsSpace c
    · by_cases ha : acc.isEmpty
      · rw [show splitAux (c :: s) acc = splitAux s [] by simp [splitAux, hc, ha]] at ht
        exact ih [] t ht
      · rw [show splitAux (c :: s) acc = acc.reverse :: splitAux s [] by
          simp [splitAux, hc, ha]] at ht
        rcases List.mem_cons.mp ht with h | h
        · subst h
          simp only [ne_eq, List.reverse_eq_nil_iff]
          intro h2
          rw [h2] at ha
          exact ha rfl
        · exact ih [] t h
    · rw [show splitAux (c :: s) acc = splitAux s (c :: acc) by simp [splitAux, hc]] at ht
      exact ih (c :: acc) t ht

theorem pySplitWS_mem_ne_nil (s t : List Char) (ht : t ∈ pySplitWS s) : t ≠ [] :=
  splitAux_mem_ne_nil s [] t ht

/-! ### The classifier agrees with the spec-worded predicate -/

theorem pure_eq_ok {ε α : Type} (a : α) : (pure a : Except ε α) = Except.ok a := rfl

theorem ok_bind {ε α β : Type} (a : α) (f : α → Except ε β) :
    (Except.ok a : Except ε α) >>= f = f a := rfl

theorem error_bind {ε α β : Type} (e : ε) (f : α → Except ε β) :
    (Except.error e : Except ε α) >>= f = Except.error e := rfl

theorem isSci_eq (label : List Char) :
    is_scientific_name label = Except.ok (scientificNameSpec label) := by
  have hsp : pySplitWS (pyStrip label) = pySplitWS label := pySplitWS_pyStrip label
  by_cases h1 : '_' ∈ label
  · simp [is_scientific_name, scientificNameSpec, h1]
  · by_cases h2 : '(' ∈ label
    · simp [is_scientific_name, scientificNameSpec, h1, h2]
    · rcases hp : pySplitWS label with _ | ⟨t1, _ | ⟨t2, _ | ⟨t3, ts⟩⟩⟩
      · simp [is_scientific_name, scientificNameSpec, h1, h2, hsp, hp]
      · simp [is_scientific_name, scientificNameSpec, h1, h2, hsp, hp]
      · have ht1 : t1 ≠ [] := pySplitWS_mem_ne_nil label t1 (by rw [hp]; simp)
        have ht2 : t2 ≠ [] := pySplitWS_mem_ne_nil label t2 (by rw [hp]; simp)
        rcases t1 with _ | ⟨c1, r1⟩
        · exact absurd rfl ht1
        rcases t2 with _ | ⟨c2, r2⟩
        · exact absurd rfl ht2
        by_cases hb1 : c1.isUpper = true <;> by_cases hb2 : c2.isLower = true <;>
          by_cases hb3 : pyStrIsAlpha (c1 :: r1) = true <;>
          by_cases hb4 : pyStrIsAlpha (c2 :: r2) = true <;>
          simp [is_scientific_name, scientificNameSpec, h1, h2, hsp, hp, pyIndex,
            ok_bind, pure_eq_ok, hb1, hb2, hb3, hb4]
      · simp [is_scientific_name, scientificNameSpec, h1, h2, hsp, hp]

theorem classifyAndFormat_eq (label : List Char) (mapping : List (List Char × List Char)) :
    classifyAndFormat label mapping = Except.ok (classifyAndFormatT label mapping) := by
  unfold classifyAndFormat classifyAndFormatT
  rw [isSci_eq, ok_bind]
  by_cases hs : scientificNameSpec label = true
  · rcases hl : pyLookup mapping label with _ | cn
    · simp [hs, hl, pure_eq_ok]
    · by_cases hc : cn.isEmpty <;> simp [hs, hl, hc, pure_eq_ok]
  · simp [hs, pure_eq_ok]

theorem mapM_classify (mapping : List (List Char × List Char)) :
    ∀ l : List (List (List Char)),
      l.mapM (fun row => classifyAndFormat (pyStrip (row.headD [])) mapping) =
        Except.ok (l.map (fun row => classifyAndFormatT (pyStrip (row.headD [])) mapping)) := by
  intro l
  induction l with
  | nil => rfl
  | cons r l ih =>
    rw [List.mapM_cons, classifyAndFormat_eq, ih]
    rfl

theorem enhancedLabelsM_eq (mapping : List (List Char × List Char))
    (rows : List (List (List Char))) :
    enhancedLabelsM mapping rows =
      Except.ok ((rows.filter (fun row => !row.isEmpty)).map
        (fun row => classifyAndFormatT (pyStrip (row.headD [])) mapping)) := by
  unfold enhancedLabelsM
  exact mapM_classify mapping _

theorem outputRows_eq (mapping : List (List Char × List Char))
    (rows : List (List (List Char))) :
    outputRows mapping rows =
      Except.ok (headerRow :: (rows.filter (fun row => !row.isEmpty)).map
        (fun row => recordToRow (classifyAndFormatT (pyStrip (row.headD [])) mapping))) := by
  unfold outputRows
  rw [enhancedLabelsM_eq, ok_bind]
  simp [pure_eq_ok, List.map_map, Function.comp]

/-! ### Association-list dictionaries -/

theorem pyLookup_nil {α β : Type} [DecidableEq α] (k : α) :
    pyLookup ([] : List (α × β)) k = none := rfl

theorem pyLookup_cons {α β : Type} [DecidableEq α] (p : α × β) (d : List (α × β)) (k : α) :
    pyLookup (p :: d) k = if p.1 = k then some p.2 else pyLookup d k := by
  unfold pyLookup
  by_cases h : p.1 = k
  · rw [List.find?_cons_of_pos _ (by simpa using h)]
    simp [h]
  · rw [List.find?_cons_of_neg _ (by simpa using h)]
    simp [h]

theorem pyLookup_eq_none_iff {α β : Type} [DecidableEq α] (d : List (α × β)) (k : α) :
    pyLookup d k = none ↔ k ∉ d.map Prod.fst := by
  unfold pyLookup
  rw [Option.map_eq_none', List.find?_eq_none]
  constructor
  · intro h hk
    obtain ⟨p, hp, hfst⟩ := List.mem_map.mp hk
    exact absurd (by simpa using hfst) (by simpa using h p hp)
  · intro h p hp
    simp only [decide_eq_true_eq]
    intro hfst
    exact h (List.mem_map.mpr ⟨p, hp, hfst⟩)

/-! ### Characterization of the taxon index -/

theorem taxonStep_eq (acc : List (Option (List Char) × List Char)) (row : NameUsageRow) :
    taxonStep acc row =
      if rowQualifies row then (row.col_ID, rowSciName row) :: acc else acc := by
  unfold taxonStep rowQualifies rowSciName
  by_cases h1 : row.col_class = some avesStr
  · by_cases h2 : row.col_rank = some speciesStr
    · by_cases h3 : (pyStrip (row.col_scientificName.getD [])).isEmpty = true
      · simp [h1, h2, h3]
      · by_cases h4 : (pyStrip (row.col_scientificName.getD [])).contains ' ' = true
        · simp [h1, h2, h3, h4]
        · simp [h1, h2, h3, h4]
    · simp [h1, h2]
  · simp [h1]

theorem foldl_taxonStep_lookup (k : Option (List Char)) :
    ∀ (rows : List NameUsageRow) (acc : List (Option (List Char) × List Char)),
      pyLookup (rows.foldl taxonStep acc) k =
        (((rows.filter rowQualifies).reverse.find?
            (fun r => r.col_ID = k)).map rowSciName).or (pyLookup acc k) := by
  intro rows
  induction rows with
  | nil => intro acc; simp
  | cons r rows ih =>
    intro acc
    rw [List.foldl_cons, ih (taxonStep acc r), taxonStep_eq]
    by_cases hq : rowQualifies r = true
    · rw [List.filter_cons_of_pos hq]
      rw [if_pos hq]
      simp only [List.reverse_cons, List.find?_append]
      rcases hf : (rows.filter rowQualifies).reverse.find? (fun r => decide (r.col_ID = k))
        with _ | r2
      · by_cases hk : r.col_ID = k
        · simp [hf, pyLookup_cons, hk]
        · simp [hf, pyLookup_cons, hk]
      · simp [hf]
    · rw [List.filter_cons_of_neg (by simpa using hq)]
      rw [if_neg hq]

theorem buildTaxonIndex_lookup (rows : List NameUsageRow) (k : Option (List Char)) :
    pyLookup (buildTaxonIndex rows) k =
      ((rows.filter rowQualifies).reverse.find? (fun r => r.col_ID = k)).map rowSciName := by
  unfold buildTaxonIndex
  rw [foldl_taxonStep_lookup]
  simp [pyLookup_nil]

/-! ### Characterization of the species mapping -/

theorem vernMatches_iff (idx : List (Option (List Char) × List Char)) (r : VernacularRow) :
    vernMatches idx r = true ↔
      (pyLookup idx r.col_taxonID).isSome = true ∧
      (pyToLower (pyStrip (r.col_language.getD [])) = enStr ∨
       pyToLower (pyStrip (r.col_language.getD [])) = engStr ∨
       pyToLower (pyStrip (r.col_language.getD [])) = englishStr) ∧
      ¬(pyStrip (r.col_name.getD [])).isEmpty = true := by
  unfold vernMatches
  simp [Bool.and_eq_true, Bool.or_eq_true, and_assoc, or_assoc]

theorem foldl_vernStep_lookup (idx : List (Option (List Char) × List Char)) (sn : List Char) :
    ∀ (vrows : List VernacularRow) (acc : List (List Char × List Char)),
      pyLookup (vrows.foldl (vernStep idx) acc) sn =
        (pyLookup acc sn).or
          ((vrows.find? (fun r => vernMatches idx r &&
              decide (pyLookup idx r.col_taxonID = some sn))).map
            (fun r => pyStrip (r.col_name.getD []))) := by
  intro vrows
  induction vrows with
  | nil => intro acc; simp
  | cons r vrows ih =>
    intro acc
    rw [List.foldl_cons, ih (vernStep idx acc r)]
    rcases hlk : pyLookup idx r.col_taxonID with _ | sname
    · have hvm : vernMatches idx r = false := by
        unfold vernMatches
        simp [hlk]
      simp [vernStep, hlk, hvm]
    · by_cases hC : (pyToLower (pyStrip (r.col_language.getD [])) = enStr ∨
          pyToLower (pyStrip (r.col_language.getD [])) = engStr ∨
          pyToLower (pyStrip (r.col_language.getD [])) = englishStr) ∧
          ¬(pyStrip (r.col_name.getD [])).isEmpty = true
      · have hvm : vernMatches idx r = true :=
          (vernMatches_iff idx r).mpr ⟨by rw [hlk]; rfl, hC.1, hC.2⟩
        have hstep : vernStep idx acc r =
            if (pyLookup acc sname).isNone then
              (sname, pyStrip (r.col_name.getD [])) :: acc
            else acc := by
          simp only [vernStep, hlk]
          rw [if_pos hC]
        by_cases hsn : sname = sn
        · subst hsn
          by_cases hg : (pyLookup acc sname).isNone = true
          · rw [hstep, if_pos hg]
            rw [Option.isNone_iff_eq_none] at hg
            simp [pyLookup_cons, hg, hvm, hlk]
          · rw [hstep, if_neg hg]
            rw [Option.isNone_iff_eq_none] at hg
            rcases ho : pyLookup acc sname with _ | v
            · exact absurd ho hg
            · simp [ho]
        · have hpr : (vernMatches idx r &&
              decide (pyLookup idx r.col_taxonID = some sn)) = false := by
            simp [hvm, hlk, hsn]
          by_cases hg : (pyLookup acc sname).isNone = true
          · rw [hstep, if_pos hg]
            simp [pyLookup_cons, hsn, hpr]
          · rw [hstep, if_neg hg]
            simp [hpr]
      · have hvm : vernMatches idx r = false := by
          rcases hb : vernMatches idx r
          · rfl
          · exact absurd ((vernMatches_iff idx r).mp hb).2 (by
              intro h2
              exact hC h2)
        have hstep : vernStep idx acc r = acc := by
          simp only [vernStep, hlk]
          rw [if_neg hC]
        rw [hstep]
        simp [hvm]

theorem buildSpeciesMapping_lookup (vrows : List VernacularRow)
    (idx : List (Option (List Char) × List Char)) (sn : List Char) :
    pyLookup (buildSpeciesMapping vrows idx) sn =
      (vrows.find? (fun r => vernMatches idx r &&
          decide (pyLookup idx r.col_taxonID = some sn))).map
        (fun r => pyStrip (r.col_name.getD [])) := by
  unfold buildSpeciesMapping
  rw [foldl_vernStep_lookup]
  simp [pyLookup_nil]

theorem foldl_vernStep_nodup (idx : List (Option (List Char) × List Char)) :
    ∀ (vrows : List VernacularRow) (acc : List (List Char × List Char)),
      (acc.map Prod.fst).Nodup → ((vrows.foldl (vernStep idx) acc).map Prod.fst).Nodup := by
  intro vrows
  induction vrows with
  | nil => intro acc h; exact h
  | cons r vrows ih =>
    intro acc h
    rw [List.foldl_cons]
    apply ih
    rcases hlk : pyLookup idx r.col_taxonID with _ | sname
    · have : vernStep idx acc r = acc := by
        simp only [vernStep, hlk]
      rw [this]
      exact h
    · simp only [vernStep, hlk]
      split
      · split
        · rename_i hg
          rw [List.map_cons, List.nodup_cons]
          exact ⟨(pyLookup_eq_none_iff acc sname).mp (Option.isNone_iff_eq_none.mp hg), h⟩
        · exact h
      · exact h

theorem buildSpeciesMapping_keys_nodup (vrows : List VernacularRow)
    (idx : List (Option (List Char) × List Char)) :
    ((buildSpeciesMapping vrows idx).map Prod.fst).Nodup :=
  foldl_vernStep_nodup idx vrows [] (by simp)

/-! ### The regex deletion agrees with the amended wording -/

theorem drop_length_takeWhile (p : Char → Bool) :
    ∀ s : List Char, s.drop (s.takeWhile p).length = s.dropWhile p := by
  intro s
  induction s with
  | nil => rfl
  | cons c s ih =>
    by_cases hc : p c
    · simp [List.takeWhile_cons, List.dropWhile_cons, hc, ih]
    · simp [List.takeWhile_cons, List.dropWhile_cons, hc]

theorem dropWhile_ne_of_contains (x : Char) :
    ∀ s : List Char, s.contains x = true →
      ∃ t, s.dropWhile (fun d => d ≠ x) = x :: t := by
  intro s
  induction s with
  | nil => intro h; simp at h
  | cons c s ih =>
    intro h
    by_cases hc : c = x
    · subst hc
      exact ⟨s, by simp [List.dropWhile_cons]⟩
    · have hs : s.contains x = true := by
        rw [List.contains_cons] at h
        rcases Bool.or_eq_true_iff.mp h with h1 | h1
        · exact absurd (beq_iff_eq.mp h1).symm hc
        · exact h1
      obtain ⟨t, ht⟩ := ih hs
      refine ⟨t, ?_⟩
      rw [List.dropWhile_cons, if_pos (by simpa using hc), ht]

theorem dropWhile_ne_of_not_contains (x : Char) :
    ∀ s : List Char, s.contains x = false →
      s.dropWhile (fun d => d ≠ x) = [] := by
  intro s
  induction s with
  | nil => intro _; rfl
  | cons c s ih =>
    intro h
    rw [List.contains_cons, Bool.or_eq_false_iff] at h
    have hc : ¬c = x := fun hcx => by simp [hcx] at h
    rw [List.dropWhile_cons, if_pos (by simpa using hc)]
    exact ih h.2

theorem subMatchLen_some (s r2 t : List Char)
    (hr : s.dropWhile pyIsSpace = '(' :: r2)
    (hdw : r2.dropWhile (fun d => d ≠ ')') = ')' :: t) :
    subMatchLen s = some ((s.takeWhile pyIsSpace).length + 1 +
        (r2.takeWhile (fun d => d ≠ ')')).length + 1) ∧
      s.drop ((s.takeWhile pyIsSpace).length + 1 +
        (r2.takeWhile (fun d => d ≠ ')')).length + 1) = t := by
  have e1 : s.drop (s.takeWhile pyIsSpace).length = '(' :: r2 := by
    rw [drop_length_takeWhile]
    exact hr
  have e3 : r2.drop (r2.takeWhile (fun d => d ≠ ')')).length = ')' :: t := by
    rw [drop_length_takeWhile]
    exact hdw
  constructor
  · simp only [subMatchLen, e1, e3]
  · rw [show (s.takeWhile pyIsSpace).length + 1 +
        (r2.takeWhile (fun d => d ≠ ')')).length + 1 =
        (s.takeWhile pyIsSpace).length +
          ((r2.takeWhile (fun d => d ≠ ')')).length + 1 + 1) by omega]
    rw [← List.drop_drop, e1, List.drop_succ_cons, ← List.drop_drop, e3,
      List.drop_succ_cons, List.drop_zero]

theorem reSub_eq_removeParensWS : ∀ (fuel : Nat) (s : List Char),
    reSubFuel fuel s = removeParensWS fuel s := by
  intro fuel
  induction fuel with
  | zero => intro s; rfl
  | succ fuel ih =>
    intro s
    cases s with
    | nil => rfl
    | cons c rest =>
      rcases hr : (c :: rest).dropWhile pyIsSpace with _ | ⟨c1, r2⟩
      · have hm : subMatchLen (c :: rest) = none := by
          simp only [subMatchLen, drop_length_takeWhile, hr]
        simp only [reSubFuel, removeParensWS, hm, hr, List.headD_nil]
        rw [if_neg (by simp), ih]
      · by_cases hc1 : c1 = '('
        · subst hc1
          by_cases hcon : r2.contains ')' = true
          · obtain ⟨t, hdw⟩ := dropWhile_ne_of_contains ')' r2 hcon
            obtain ⟨hm, hd⟩ := subMatchLen_some (c :: rest) r2 t hr hdw
            have hmem : ')' ∈ r2 := by simpa using hcon
            simp only [reSubFuel, removeParensWS, hm, hr, List.headD_cons, hd]
            rw [if_pos (by simp [hmem])]
            simp only [List.drop_succ_cons, List.drop_zero, hdw]
            exact ih t
          · rw [Bool.not_eq_true] at hcon
            have hm : subMatchLen (c :: rest) = none := by
              have e3 : r2.drop (r2.takeWhile (fun d => d ≠ ')')).length = [] := by
                rw [drop_length_takeWhile]
                exact dropWhile_ne_of_not_contains ')' r2 hcon
              simp only [subMatchLen, drop_length_takeWhile, hr, e3]
            have hmem : ')' ∉ r2 := by simpa using hcon
            simp only [reSubFuel, removeParensWS, hm, hr, List.headD_cons]
            rw [if_neg (by simp [hmem]), ih]
        · have hm : subMatchLen (c :: rest) = none := by
            simp only [subMatchLen, drop_length_takeWhile, hr]
            split
            · rename_i r heq
              injection heq with h1 h2
              exact absurd h1 hc1
            · rfl
          simp only [reSubFuel, removeParensWS, hm, hr, List.headD_cons]
          rw [if_neg (by simp [hc1]), ih]

theorem format_eq_amended (label : List Char) :
    format_non_species_label label = formatAmendedSpec label := by
  exact congrArg pyStrip
    (reSub_eq_removeParensWS (replaceUnderscores label).length (replaceUnderscores label))

/-! ### Pipeline lemmas -/

/-- The archive in `fs`, when present, holds both expected TSV members. -/
def zipComplete (fs : ColFS) : Bool :=
  match fs.colZip with
  | some z => z.nameUsage.isSome && z.vernacular.isSome
  | none => false

theorem download_skip (net : Except PyErr ZipContent) (fs : ColFS)
    (h : fs.colZip.isSome = true) :
    download_col_data net fs = Except.ok (fs, false) := by
  unfold download_col_data
  rw [if_pos h]

theorem extract_skip (fs : ColFS) (h1 : fs.nameUsage.isSome = true)
    (h2 : fs.vernacular.isSome = true) :
    extract_col_data fs = Except.ok (fs, false) := by
  unfold extract_col_data
  rw [if_pos (by rw [h1, h2]; rfl)]

theorem download_ok_state (net : Except PyErr ZipContent) (fs fs1 : ColFS) (b : Bool)
    (h : download_col_data net fs = Except.ok (fs1, b)) :
    fs1.colZip.isSome = true ∧ fs1.nameUsage = fs.nameUsage ∧
      fs1.vernacular = fs.vernacular ∧ fs1.labelsFile = fs.labelsFile := by
  unfold download_col_data at h
  by_cases hz : fs.colZip.isSome = true
  · rw [if_pos hz] at h
    simp only [Except.ok.injEq, Prod.mk.injEq] at h
    obtain ⟨h1, _⟩ := h
    subst h1
    exact ⟨hz, rfl, rfl, rfl⟩
  · rw [if_neg hz] at h
    rcases net with e | z
    · exact absurd h (by simp)
    · simp only [Except.ok.injEq, Prod.mk.injEq] at h
      obtain ⟨h1, _⟩ := h
      subst h1
      exact ⟨rfl, rfl, rfl, rfl⟩

theorem extract_ok_state (fs fs2 : ColFS) (b : Bool)
    (h : extract_col_data fs = Except.ok (fs2, b)) :
    fs2.colZip = fs.colZip ∧ fs2.labelsFile = fs.labelsFile ∧
      (zipComplete fs2 = true → fs2.nameUsage.isSome = true ∧ fs2.vernacular.isSome = true) := by
  unfold extract_col_data at h
  by_cases hd : (fs.nameUsage.isSome && fs.vernacular.isSome) = true
  · rw [if_pos hd] at h
    simp only [Except.ok.injEq, Prod.mk.injEq] at h
    obtain ⟨h1, _⟩ := h
    subst h1
    rw [Bool.and_eq_true] at hd
    exact ⟨rfl, rfl, fun _ => hd⟩
  · rw [if_neg hd] at h
    rcases hz : fs.colZip with _ | z
    · rw [hz] at h
      exact absurd h (by simp)
    · rw [hz] at h
      simp only [Except.ok.injEq, Prod.mk.injEq] at h
      obtain ⟨h1, _⟩ := h
      subst h1
      refine ⟨rfl, rfl, fun hc => ?_⟩
      unfold zipComplete at hc
      simp only [hz] at hc
      rw [Bool.and_eq_true] at hc
      constructor
      · rcases hn : z.nameUsage with _ | nu
        · rw [hn] at hc
          exact absurd hc.1 (by simp)
        · simp [Option.or, hn]
      · rcases hv : z.vernacular with _ | vn
        · rw [hv] at hc
          exact absurd hc.2 (by simp)
        · simp [Option.or, hv]

theorem cacheManager_ok (net : Except PyErr ZipContent) (fs fs1 : ColFS) (n1 e1 : Nat)
    (h : cacheManager net fs = Except.ok (fs1, n1, e1)) (hc : zipComplete fs1 = true) :
    cacheManager net fs1 = Except.ok (fs1, 0, 0) ∧ n1 ≤ 1 ∧ e1 ≤ 1 := by
  unfold cacheManager at h
  rcases hdl : download_col_data net fs with e | ⟨fsA, b1⟩
  · rw [hdl, error_bind] at h
    exact absurd h (by simp)
  · rw [hdl, ok_bind] at h
    rcases hex : extract_col_data fsA with e | ⟨fsB, b2⟩
    · simp only [hex, error_bind] at h
      exact absurd h (by simp)
    · simp only [hex, ok_bind, pure_eq_ok, Except.ok.injEq, Prod.mk.injEq] at h
      obtain ⟨hB, hn, he⟩ := h
      subst hB
      obtain ⟨hzipA, _, _, _⟩ := download_ok_state net fs fsA b1 hdl
      obtain ⟨hzipEq, _, hcomp⟩ := extract_ok_state fsA fsB b2 hex
      obtain ⟨hnu, hvn⟩ := hcomp hc
      have hzip1 : fsB.colZip.isSome = true := by rw [hzipEq]; exact hzipA
      refine ⟨?_, ?_, ?_⟩
      · unfold cacheManager
        rw [download_skip net fsB hzip1, ok_bind, extract_skip fsB hnu hvn, ok_bind]
        rfl
      · rw [← hn]
        cases b1 <;> simp
      · rw [← he]
        cases b2 <;> simp

theorem process_labels_missing_labels (net : Except PyErr ZipContent) (fs : ColFS)
    (h : fs.labelsFile = none) :
    ∀ out, process_labels net fs ≠ Except.ok out := by
  intro out
  unfold process_labels
  rcases hdl : download_col_data net fs with e | ⟨fsA, b1⟩
  · rw [error_bind]
    simp
  · simp only [ok_bind]
    rcases hex : extract_col_data fsA with e | ⟨fsB, b2⟩
    · rw [error_bind]
      simp
    · simp only [ok_bind]
      obtain ⟨_, _, _, hlblA⟩ := download_ok_state net fs fsA b1 hdl
      obtain ⟨_, hlblB, _⟩ := extract_ok_state fsA fsB b2 hex
      rw [hlblB, hlblA, h]
      simp

theorem load_empty_of_missing (fs : ColFS)
    (h : fs.nameUsage = none ∨ fs.vernacular = none) :
    load_bird_species_mapping fs = [] := by
  unfold load_bird_species_mapping
  rcases h with h | h <;> rw [h]
  rcases hn : fs.nameUsage with _ | nu <;> rfl

theorem process_labels_missing_tsv (net : Except PyErr ZipContent) (fs fs1 fs2 : ColFS)
    (b1 b2 : Bool) (rows : List (List (List Char)))
    (hdl : download_col_data net fs = Except.ok (fs1, b1))
    (hex : extract_col_data fs1 = Except.ok (fs2, b2))
    (hmiss : fs2.nameUsage = none ∨ fs2.vernacular = none)
    (hlbl : fs2.labelsFile = some rows) :
    process_labels net fs = Except.ok (fs2, headerRow ::
      (rows.filter (fun row => !row.isEmpty)).map
        (fun row => recordToRow (classifyAndFormatT (pyStrip (row.headD [])) []))) := by
  unfold process_labels
  rw [hdl]
  simp only [ok_bind]
  rw [hex]
  simp only [ok_bind, hlbl]
  rw [load_empty_of_missing fs2 hmiss, outputRows_eq, ok_bind]
  rfl

/-! ### Named file-system states used by concrete runs -/

/-- A file system with nothing cached and no labels file. -/
def fsEmpty : ColFS := ⟨none, none, none, none⟩

/-- A file system whose cached archive lacks both TSV members, with a labels
file holding the single label Silence. -/
def fsDefectiveZip : ColFS := ⟨some ⟨none, none⟩, none, none, some [[silenceStr]]⟩

/-- A file system with a complete cached archive, both TSV files extracted,
and a labels file present. -/
def fsFull : ColFS := ⟨some ⟨some [], some []⟩, some [], some [], some []⟩

theorem classifyAndFormatT_original (label : List Char)
    (mapping : List (List Char × List Char)) :
    (classifyAndFormatT label mapping).original_label = label := by
  unfold classifyAndFormatT
  split
  · rcases hl : pyLookup mapping label with _ | cn
    · simp only [hl]
    · simp only [hl]
      split <;> rfl
  · rfl

/-! ### Claim theorems -/

/-- Claim C1: `is_scientific_name(label)` returns True exactly when the label
has no underscore and no opening parenthesis, splits on whitespace into two
tokens whose leading characters are uppercase then lowercase and which are
fully alphabetic; and the four quoted examples evaluate as stated. -/
theorem c1_is_scientific_name_iff :
    (∀ label : List Char,
      is_scientific_name label = Except.ok true ↔ scientificNameSpec label = true) ∧
    is_scientific_name corvusCorax = Except.ok true ∧
    is_scientific_name corvusUnderscore = Except.ok false ∧
    is_scientific_name corvusThree = Except.ok false ∧
    is_scientific_name corvusLower = Except.ok false := by
  refine ⟨fun label => ?_, by decide, by decide, by decide, by decide⟩
  rw [isSci_eq]
  exact ⟨fun h => by simpa using h, fun h => by rw [h]⟩

/-- Claim C2, counterexample: on the label consisting of the letter a, a
space, b in parentheses, a space, and the letter c, the code removes the
whitespace preceding the opening parenthesis (giving one interior space)
while the claimed procedure, which removes only the parenthesized substring
itself, leaves two interior spaces, so the claimed equality fails. -/
theorem c2_counterexample :
    format_non_species_label abcParen = acStr ∧
    formatLiteralSpec abcParen = aSpaceSpaceC ∧
    ¬format_non_species_label abcParen = formatLiteralSpec abcParen := by
  decide

/-- Claim C2 as amended: `format_non_species_label` replaces underscores by
spaces, removes every parenthesized substring including its parentheses and
any whitespace immediately preceding the opening parenthesis via a non-greedy
match, then trims; and the quoted example evaluates as stated. -/
theorem c2_format_amended :
    (∀ label : List Char, format_non_species_label label = formatAmendedSpec label) ∧
    format_non_species_label humanVocalSong = humanVocal :=
  ⟨format_eq_amended, by decide⟩

/-- Claim C3: against an empty mapping, a label classified scientific keeps
itself as display name, any other label gets the formatted form, and the
common-name field is empty either way. -/
theorem c3_empty_mapping :
    ∀ label : List Char,
      (is_scientific_name label = Except.ok true →
        classifyAndFormat label [] = Except.ok ⟨label, [], label⟩) ∧
      (is_scientific_name label = Except.ok false →
        classifyAndFormat label [] =
          Except.ok ⟨label, [], format_non_species_label label⟩) := by
  intro label
  constructor
  · intro h
    rw [isSci_eq] at h
    have hs : scientificNameSpec label = true := by simpa using h
    rw [classifyAndFormat_eq]
    unfold classifyAndFormatT
    rw [if_pos hs]
    rfl
  · intro h
    rw [isSci_eq] at h
    have hs : scientificNameSpec label = false := by simpa using h
    rw [classifyAndFormat_eq]
    unfold classifyAndFormatT
    rw [if_neg (by rw [hs]; exact Bool.false_ne_true)]

/-- Claim C3, witness: the two conditional conclusions hold at the concrete
labels Corvus corax (scientific) and Human vocal song (non-scientific). -/
theorem c3_empty_mapping_witness :
    classifyAndFormat corvusCorax [] = Except.ok ⟨corvusCorax, [], corvusCorax⟩ ∧
    classifyAndFormat humanVocalSong [] =
      Except.ok ⟨humanVocalSong, [], format_non_species_label humanVocalSong⟩ :=
  ⟨(c3_empty_mapping corvusCorax).1 (by decide),
   (c3_empty_mapping humanVocalSong).2 (by decide)⟩

/-- Claim C4, counterexample: a vernacular row whose name field is a single
space satisfies the claim's literal conditions (matched taxon, English
language, non-empty name), yet the code strips the name, finds it empty, and
records nothing, so the mapping is empty rather than holding that row. -/
theorem c4_counterexample :
    vernMatchesLiteral [(some t1Str, corvusCorax)]
      ⟨some t1Str, some spaceOnlyStr, some enStr⟩ = true ∧
    pyLookup [(some t1Str, corvusCorax)]
      (some t1Str : Option (List Char)) = some corvusCorax ∧
    buildSpeciesMapping [⟨some t1Str, some spaceOnlyStr, some enStr⟩]
      [(some t1Str, corvusCorax)] = [] := by
  decide

/-- Claim C4 as amended: for each scientific name the mapping records the
stripped vernacular name of the first row whose taxon identifier is in the
index, whose stripped language lowercases to en, eng or english, and whose
stripped name is non-empty; later matching rows are ignored, keys are not
duplicated, and the quoted two-row scenario yields exactly the Common Raven
binding. -/
theorem c4_mapping_first_match :
    (∀ (vrows : List VernacularRow) (idx : List (Option (List Char) × List Char))
        (sn : List Char),
      pyLookup (buildSpeciesMapping vrows idx) sn =
        (vrows.find? (fun r => vernMatches idx r &&
            decide (pyLookup idx r.col_taxonID = some sn))).map
          (fun r => pyStrip (r.col_name.getD []))) ∧
    (∀ (vrows : List VernacularRow) (idx : List (Option (List Char) × List Char)),
      ((buildSpeciesMapping vrows idx).map Prod.fst).Nodup) ∧
    buildSpeciesMapping
      [⟨some t1Str, some commonRaven, some enStr⟩,
       ⟨some t1Str, some grandCorbeau, some frStr⟩]
      [(some t1Str, corvusCorax)] = [(corvusCorax, commonRaven)] :=
  ⟨buildSpeciesMapping_lookup, buildSpeciesMapping_keys_nodup, by decide⟩

/-- Claim C5: the taxon index holds a key exactly when some row qualifies
(class Aves, rank species, stripped scientific name non-empty and containing
a space), the recorded value being the stripped scientific name of the last
such row with that identifier (last-write-wins). -/
theorem c5_taxon_index :
    (∀ (rows : List NameUsageRow) (k : Option (List Char)),
      pyLookup (buildTaxonIndex rows) k =
        ((rows.filter rowQualifies).reverse.find? (fun r => r.col_ID = k)).map
          rowSciName) ∧
    (∀ row : NameUsageRow,
      rowQualifies row = true ↔
        row.col_class = some avesStr ∧ row.col_rank = some speciesStr ∧
        ¬(pyStrip (row.col_scientificName.getD [])).isEmpty = true ∧
        (pyStrip (row.col_scientificName.getD [])).contains ' ' = true) := by
  refine ⟨buildTaxonIndex_lookup, fun row => ?_⟩
  unfold rowQualifies
  simp [Bool.and_eq_true, and_assoc]

/-- Claim C6, counterexample: when the network fetch fails on an empty cache,
the entry point prints the error and the trace but the exception is caught,
so the interpreter exits with status 0, not a non-zero status. -/
theorem c6_counterexample :
    process_labels (Except.error PyErr.urlError) fsEmpty = Except.error PyErr.urlError ∧
    mainEntry (Except.error PyErr.urlError) fsEmpty = ⟨true, true, 0⟩ ∧
    ¬(mainEntry (Except.error PyErr.urlError) fsEmpty).exitCode ≠ 0 := by
  decide

/-- Claim C6 as amended: on any failure inside `process_labels` the entry
point prints an error message and the full trace and the process exits with
status zero, the exception having been caught and suppressed. -/
theorem c6_main_catches :
    ∀ (net : Except PyErr ZipContent) (fs : ColFS) (e : PyErr),
      process_labels net fs = Except.error e →
        (mainEntry net fs).errorPrinted = true ∧
        (mainEntry net fs).tracePrinted = true ∧
        (mainEntry net fs).exitCode = 0 := by
  intro net fs e h
  unfold mainEntry
  rw [h]
  exact ⟨rfl, rfl, rfl⟩

/-- Claim C6, witness: the amended conclusion holds concretely for a failing
network fetch on an empty cache. -/
theorem c6_main_catches_witness :
    (mainEntry (Except.error PyErr.urlError) fsEmpty).errorPrinted = true ∧
    (mainEntry (Except.error PyErr.urlError) fsEmpty).tracePrinted = true ∧
    (mainEntry (Except.error PyErr.urlError) fsEmpty).exitCode = 0 :=
  c6_main_catches (Except.error PyErr.urlError) fsEmpty PyErr.urlError (by decide)

/-- Claim C7, counterexample: with a cached archive that yields neither TSV
file, NameUsage.tsv is still absent when the mapping is loaded, yet the run
completes and produces output rows (with an empty mapping) instead of
aborting. -/
theorem c7_counterexample :
    fsDefectiveZip.nameUsage = none ∧
    process_labels (Except.error PyErr.urlError) fsDefectiveZip =
      Except.ok (fsDefectiveZip, [headerRow, [silenceStr, [], silenceStr]]) := by
  decide

/-- Claim C7 as amended: a missing labels file is fatal (the run never
returns output), but a missing extracted TSV file only makes the pipeline
warn and continue with the empty mapping, still producing output. -/
theorem c7_missing_files :
    (∀ (net : Except PyErr ZipContent) (fs : ColFS), fs.labelsFile = none →
      ∀ out, process_labels net fs ≠ Except.ok out) ∧
    (∀ (net : Except PyErr ZipContent) (fs fs1 fs2 : ColFS) (b1 b2 : Bool)
        (rows : List (List (List Char))),
      download_col_data net fs = Except.ok (fs1, b1) →
      extract_col_data fs1 = Except.ok (fs2, b2) →
      (fs2.nameUsage = none ∨ fs2.vernacular = none) →
      fs2.labelsFile = some rows →
      process_labels net fs = Except.ok (fs2, headerRow ::
        (rows.filter (fun row => !row.isEmpty)).map
          (fun row => recordToRow (classifyAndFormatT (pyStrip (row.headD [])) [])))) :=
  ⟨process_labels_missing_labels, process_labels_missing_tsv⟩

/-- Claim C7, witness: concretely, a run with no labels file returns no
output, and a run with a defective archive and the Silence labels file
succeeds with the empty mapping. -/
theorem c7_missing_files_witness :
    process_labels (Except.error PyErr.urlError) fsEmpty ≠
      Except.ok (fsEmpty, []) ∧
    process_labels (Except.error PyErr.urlError) fsDefectiveZip =
      Except.ok (fsDefectiveZip, headerRow ::
        (([[silenceStr]] : List (List (List Char))).filter (fun row => !row.isEmpty)).map
          (fun row => recordToRow (classifyAndFormatT (pyStrip (row.headD [])) []))) :=
  ⟨c7_missing_files.1 (Except.error PyErr.urlError) fsEmpty (by decide) (fsEmpty, []),
   c7_missing_files.2 (Except.error PyErr.urlError) fsDefectiveZip fsDefectiveZip
     fsDefectiveZip false true [[silenceStr]] (by decide) (by decide)
     (Or.inl (by decide)) (by decide)⟩

/-- Claim C8, counterexample: for an input label with a leading space, the
first field of the written row is the stripped label, not the label as it
appears in the input file. -/
theorem c8_counterexample :
    outputRows [] [[corvusPadded]] =
      Except.ok [headerRow, [corvusCorax, [], corvusCorax]] ∧
    ¬outputRows [] [[corvusPadded]] =
      Except.ok [headerRow, [corvusPadded, [], corvusPadded]] := by
  decide

/-- Claim C8 as amended: the output is the header row followed by exactly one
row per non-empty input row in input order, whose fields are the stripped
original label, its common name, and its display name. -/
theorem c8_output_rows :
    (∀ (mapping : List (List Char × List Char)) (rows : List (List (List Char))),
      outputRows mapping rows =
        Except.ok (headerRow :: (rows.filter (fun row => !row.isEmpty)).map
          (fun row => recordToRow (classifyAndFormatT (pyStrip (row.headD [])) mapping)))) ∧
    (∀ (label : List Char) (mapping : List (List Char × List Char)),
      (classifyAndFormatT label mapping).original_label = label) ∧
    (∀ r : LabelRecord, recordToRow r = [r.original_label, r.common_name, r.display_name]) :=
  ⟨outputRows_eq, classifyAndFormatT_original, fun _ => rfl⟩

/-- Claim C9, counterexample: when the cached archive does not contain the
two expected TSV members, every run of the Cache Manager performs extraction
work again (extraction count 1 each run, never reaching the claimed at most
one extraction over two runs), even though the state is unchanged. -/
theorem c9_counterexample :
    cacheManager (Except.error PyErr.urlError) fsDefectiveZip =
      Except.ok (fsDefectiveZip, 0, 1) ∧
    ¬cacheManager (Except.error PyErr.urlError) fsDefectiveZip =
      Except.ok (fsDefectiveZip, 0, 0) := by
  decide

/-- Claim C9 as amended: an existing archive suppresses the network fetch, a
complete pair of extracted TSV files suppresses extraction, and when the
archive obtained by the first run contains both TSV members, a second run is
a no-op on the cache state with zero network and extraction work, the first
run having done at most one of each. -/
theorem c9_cache_idempotent :
    (∀ (net : Except PyErr ZipContent) (fs : ColFS), fs.colZip.isSome = true →
      download_col_data net fs = Except.ok (fs, false)) ∧
    (∀ fs : ColFS, fs.nameUsage.isSome = true → fs.vernacular.isSome = true →
      extract_col_data fs = Except.ok (fs, false)) ∧
    (∀ (net : Except PyErr ZipContent) (fs fs1 : ColFS) (n1 e1 : Nat),
      cacheManager net fs = Except.ok (fs1, n1, e1) → zipComplete fs1 = true →
        cacheManager net fs1 = Except.ok (fs1, 0, 0) ∧ n1 ≤ 1 ∧ e1 ≤ 1) :=
  ⟨download_skip, extract_skip, cacheManager_ok⟩

/-- Claim C9, witness: with the archive and both TSV files present, a run of
the Cache Manager does no work and leaves the state unchanged. -/
theorem c9_cache_idempotent_witness :
    download_col_data (Except.error PyErr.urlError) fsFull = Except.ok (fsFull, false) ∧
    extract_col_data fsFull = Except.ok (fsFull, false) ∧
    (cacheManager (Except.error PyErr.urlError) fsFull = Except.ok (fsFull, 0, 0) ∧
      (0 : Nat) ≤ 1 ∧ (0 : Nat) ≤ 1) :=
  ⟨c9_cache_idempotent.1 (Except.error PyErr.urlError) fsFull (by decide),
   c9_cache_idempotent.2.1 fsFull (by decide) (by decide),
   c9_cache_idempotent.2.2 (Except.error PyErr.urlError) fsFull fsFull 0 0
     (by decide) (by decide)⟩

/-- Claim C10: `is_scientific_name` is total: on every label, including empty
and all-whitespace ones, it returns a boolean and never raises, the two-token
check guarding the indexing of each token's first character. -/
theorem c10_is_scientific_name_total :
    ∀ label : List Char, ∃ b : Bool, is_scientific_name label = Except.ok b :=
  fun label => ⟨scientificNameSpec label, isSci_eq label⟩

end Twig
